import Mathlib

/-!
Verification of the `ora2csv` incremental Oracle-to-CSV exporter.

This file shallowly embeds the core of the repository:

* `pkg/types/entity.go` — the `EntityState` / `EntityResult` / `ExportResult`
  data model and the `lastRunTime` parse/format pair;
* `internal/exporter/csvwriter.go` — the CSV serialization core
  (`formatValue`, field quoting per Go `encoding/csv` with `UseCRLF=false`,
  `WriteScannedRow`'s empty-string-to-NULL collapse);
* `internal/state/state.go` — the watermark store (`UpdateEntityTimestamp`,
  `save` with temp-write + atomic rename + optional S3 mirror push);
* the exporter orchestration (`Run`, `processEntity`, `getStartDate`,
  `executeQueryToCSV`).

Machine integers do not overflow on these code paths, so timestamps are
modelled as mathematical integers (seconds since the Unix epoch, UTC);
Go `time.Time` values in this program are always UTC wall-clock values
with whole-second granularity.  External effects (the Oracle cursor, the
filesystem, the S3 client, the clock) are supplied by an explicit
environment, and stateful code threads an explicit state record.
-/

namespace Ora2csv

/-! ### Time

Go `time.Time` restricted to what the program uses: UTC instants at
second granularity.  `civilFromDays`/`daysFromCivil` are the standard
proleptic-Gregorian conversions (the same calendar Go's `time` package
computes with); `formatTS`/`parseTS` embed
`Format("2006-01-02T15:04:05")` and
`Parse/ParseInLocation("2006-01-02T15:04:05", s)` for in-range values. -/

/-- An instant: seconds since the Unix epoch, UTC. -/
abbrev Instant := Int

/-- Days-since-epoch to (year, month, day) in the proleptic Gregorian
calendar (Go's `time.Time.Date` on a UTC instant). -/
def civilFromDays (z0 : Int) : Int × Int × Int :=
  let z := z0 + 719468
  let era := z.ediv 146097
  let doe := z - era * 146097
  let yoe := (doe - doe.ediv 1460 + doe.ediv 36524 - doe.ediv 146096).ediv 365
  let y := yoe + era * 400
  let doy := doe - (365 * yoe + yoe.ediv 4 - yoe.ediv 100)
  let mp := (5 * doy + 2).ediv 153
  let d := doy - (153 * mp + 2).ediv 5 + 1
  let m := mp + (if mp < 10 then 3 else -9)
  (if m ≤ 2 then y + 1 else y, m, d)

/-- Conversion of (year, month, day) to days-since-epoch, inverse of `civilFromDays`
(Go's `time.Date(y, m, d, …, time.UTC)`). -/
def daysFromCivil (y m d : Int) : Int :=
  let y1 := if m ≤ 2 then y - 1 else y
  let era := y1.ediv 400
  let yoe := y1 - era * 400
  let mp := if m ≤ 2 then m + 9 else m - 3
  let doy := (153 * mp + 2).ediv 5 + d - 1
  let doe := yoe * 365 + yoe.ediv 4 - yoe.ediv 100 + doy
  era * 146097 + doe - 719468

/-- Zero-padded decimal of width 2 (Go layout fragments `01`, `02`, `15`,
`04`, `05`). -/
def pad2 (n : Int) : String :=
  if n < 10 then "0" ++ toString n else toString n

/-- Zero-padded decimal of width 4 (Go layout fragment `2006`). -/
def pad4 (n : Int) : String :=
  if n < 10 then "000" ++ toString n
  else if n < 100 then "00" ++ toString n
  else if n < 1000 then "0" ++ toString n
  else toString n

/-- Go `t.Format("2006-01-02T15:04:05")` for a UTC instant `t`. -/
def formatTS (t : Instant) : String :=
  let days := t.ediv 86400
  let secs := t.emod 86400
  let c := civilFromDays days
  pad4 c.1 ++ "-" ++ pad2 c.2.1 ++ "-" ++ pad2 c.2.2 ++ "T" ++
    pad2 (secs.ediv 3600) ++ ":" ++ pad2 ((secs.emod 3600).ediv 60) ++ ":" ++
    pad2 (secs.emod 60)

/-- Decimal digit value of a character, if it is one. -/
def digitVal (c : Char) : Option Int :=
  if 48 ≤ c.toNat ∧ c.toNat ≤ 57 then some ((c.toNat : Int) - 48) else none

/-- Read `n` decimal digits from the front of a character list. -/
def readDigits : Nat → List Char → Option (Int × List Char)
  | 0, cs => some (0, cs)
  | _ + 1, [] => none
  | n + 1, c :: cs =>
    match digitVal c with
    | none => none
    | some v =>
      match readDigits n cs with
      | none => none
      | some (rest, cs') => some (v * (10 ^ n : Nat) + rest, cs')

/-- Number of days in a Gregorian month (Go `time` month lengths). -/
def daysInMonth (y m : Int) : Int :=
  if m = 2 then
    if y.emod 4 = 0 ∧ (y.emod 100 ≠ 0 ∨ y.emod 400 = 0) then 29 else 28
  else if m = 4 ∨ m = 6 ∨ m = 9 ∨ m = 11 then 30
  else 31

/-- Go `time.Parse("2006-01-02T15:04:05", s)` (UTC): accepts exactly
`YYYY-MM-DDTHH:MM:SS` with in-range components, rejecting anything else
(Go reports a parse or out-of-range error). -/
def parseTS (s : String) : Option Instant :=
  match readDigits 4 s.data with
  | none => none
  | some (y, r1) =>
    match r1 with
    | '-' :: r2 =>
      match readDigits 2 r2 with
      | none => none
      | some (mo, r3) =>
        match r3 with
        | '-' :: r4 =>
          match readDigits 2 r4 with
          | none => none
          | some (d, r5) =>
            match r5 with
            | 'T' :: r6 =>
              match readDigits 2 r6 with
              | none => none
              | some (h, r7) =>
                match r7 with
                | ':' :: r8 =>
                  match readDigits 2 r8 with
                  | none => none
                  | some (mi, r9) =>
                    match r9 with
                    | ':' :: r10 =>
                      match readDigits 2 r10 with
                      | none => none
                      | some (se, r11) =>
                        if r11 = [] ∧ 1 ≤ mo ∧ mo ≤ 12 ∧ 1 ≤ d ∧
                            d ≤ daysInMonth y mo ∧ h ≤ 23 ∧ mi ≤ 59 ∧ se ≤ 59 then
                          some (86400 * daysFromCivil y mo d +
                            3600 * h + 60 * mi + se)
                        else none
                    | _ => none
                | _ => none
            | _ => none
        | _ => none
    | _ => none

/-- Go's zero `time.Time` (0001-01-01T00:00:00 UTC) as an instant:
`GetLastRunTime` returns it for an absent watermark and `getStartDate`
tests for it with `IsZero`. -/
def zeroTime : Instant := 86400 * daysFromCivil 1 1 1

/-! ### Data model (`pkg/types/entity.go`) -/

/-- One element of the persisted `state.json` array. -/
structure EntityState where
  entity : String
  lastRunTime : String
  active : Bool
deriving Repr, DecidableEq

/-- Result of processing one entity.  `Duration` (wall-clock) is dropped:
no claim mentions it and it is real time.  `Error` is the message of the
recorded error, `none` when nil. -/
structure EntityResult where
  entity : String
  success : Bool
  rowCount : Nat
  filePath : String
  error : Option String
deriving Repr, DecidableEq

/-- Aggregate result of a run (`types.ExportResult`, minus `Duration`). -/
structure ExportResult where
  totalEntities : Nat
  processedCount : Nat
  successCount : Nat
  failedCount : Nat
  skippedCount : Nat
  results : List EntityResult
deriving Repr, DecidableEq

/-- The source `EntityState.GetLastRunTime`: empty or `"null"` watermark parses to the
zero time; otherwise `time.ParseInLocation("2006-01-02T15:04:05", …)`,
whose failure is an error. -/
def getLastRunTimeE (e : EntityState) : Except String Instant :=
  if e.lastRunTime = "" ∨ e.lastRunTime = "null" then .ok zeroTime
  else
    match parseTS e.lastRunTime with
    | none => .error ("parsing time " ++ e.lastRunTime)
    | some t => .ok t

/-! ### CSV serialization core (`internal/exporter/csvwriter.go`)

The writer is Go `encoding/csv` with `Comma = ','` and `UseCRLF = false`.
The core is defined on `List Char` with `String` wrappers. -/

/-- Go `unicode.IsSpace`: the White_Space code points. -/
def isSpaceRune (c : Char) : Bool :=
  c = ' ' ∨ c = '\t' ∨ c = '\n' ∨ (11 : Nat) = c.toNat ∨ (12 : Nat) = c.toNat ∨
    c = '\r' ∨ c.toNat = 0x85 ∨ c.toNat = 0xA0 ∨ c.toNat = 0x1680 ∨
    (0x2000 ≤ c.toNat ∧ c.toNat ≤ 0x200A) ∨ c.toNat = 0x2028 ∨
    c.toNat = 0x2029 ∨ c.toNat = 0x202F ∨ c.toNat = 0x205F ∨ c.toNat = 0x3000

/-- Go `csv.Writer.fieldNeedsQuotes` with the default comma: empty fields are
unquoted; `\.` is special-cased; fields containing the delimiter, a
quote or a line break are quoted; else quote iff the first rune is a
space. -/
def fieldNeedsQuotesL (cs : List Char) : Bool :=
  if cs = [] then false
  else if cs = ['\\', '.'] then true
  else if cs.any (fun c => c = ',' ∨ c = '"' ∨ c = '\r' ∨ c = '\n') then true
  else isSpaceRune (cs.headD ' ')

/-- Body of a quoted field with `UseCRLF = false`: internal quotes are
doubled, `\r` and `\n` pass through unchanged. -/
def escapeQuotedL : List Char → List Char
  | [] => []
  | c :: rest =>
    if c = '"' then '"' :: '"' :: escapeQuotedL rest else c :: escapeQuotedL rest

/-- One CSV field as written by `csv.Writer.Write`. -/
def writeFieldL (cs : List Char) : List Char :=
  if fieldNeedsQuotesL cs then '"' :: (escapeQuotedL cs ++ ['"']) else cs

/-- One CSV record: comma-separated fields, LF terminator
(`UseCRLF = false`). -/
def writeRecordL (fields : List (List Char)) : List Char :=
  (List.intercalate [','] (fields.map writeFieldL)) ++ ['\n']

/-- String-level record write. -/
def writeRecordStr (fields : List String) : String :=
  ⟨writeRecordL (fields.map String.data)⟩

/-- The dynamic values `formatValue` can receive on the streaming path.
The source function also has `float32`/`float64` cases delegating to Go
`strconv.FormatFloat`; the row-scanning paths scan every column into a
string slot, so only nil and string (and never float) values reach
`formatValue` in this program, and the float cases are omitted here. -/
inductive GoValue where
  | vnull
  | vbytes (s : String)
  | vstr (s : String)
  | vint (n : Int)
  | vbool (b : Bool)
deriving Repr, DecidableEq

/-- The source `formatValue`: NULL becomes the empty string; bytes and strings pass
through; integers print in decimal; booleans print as `1`/`0`. -/
def formatValue : GoValue → String
  | .vnull => ""
  | .vbytes s => s
  | .vstr s => s
  | .vint n => toString n
  | .vbool b => if b then "1" else "0"

/-- The source `CSVWriter.WriteRow`: format every value, then write one record. -/
def writeRowValues (values : List GoValue) : String :=
  writeRecordStr (values.map formatValue)

/-- The source `StreamingCSVWriter.WriteScannedRow`: every scanned slot is a string;
an empty scan result is turned into nil (NULL) before `WriteRow`. -/
def writeScannedRecord (rowValues : List String) : String :=
  writeRowValues (rowValues.map fun v => if v = "" then .vnull else .vstr v)

/-! ### CSV reading

Modelled from the spec: the repository only writes CSV (the reader is an
external consumer), and the spec's round-trip property (§8) reads the
artifact back.  `parseRecordL` is an RFC 4180 reader for one record of
the writer's output format (comma delimiter, LF record terminator,
quoted fields with doubled internal quotes; a quote inside an unquoted
field, an unterminated quote, or trailing garbage after a closing quote
is an error, as in Go `encoding/csv` without `LazyQuotes`). -/

/-- Parse the remainder of a quoted field (the opening quote already
consumed): `""` is an escaped quote, a lone `"` closes the field. -/
def parseQuoted : List Char → Option (List Char × List Char)
  | [] => none
  | c :: rest =>
    if c = '"' then
      match rest with
      | [] => some ([], [])
      | c2 :: rest2 =>
        if c2 = '"' then
          match parseQuoted rest2 with
          | none => none
          | some (f, r) => some ('"' :: f, r)
        else some ([], rest)
    else
      match parseQuoted rest with
      | none => none
      | some (f, r) => some (c :: f, r)

/-- Parse an unquoted field: runs to the next comma, LF or end of input;
a bare quote is an error. -/
def parseBare : List Char → Option (List Char × List Char)
  | [] => some ([], [])
  | c :: rest =>
    if c = ',' ∨ c = '\n' then some ([], c :: rest)
    else if c = '"' then none
    else
      match parseBare rest with
      | none => none
      | some (f, r) => some (c :: f, r)

/-- Parse one field: quoted if it starts with a quote, else unquoted. -/
def parseField (cs : List Char) : Option (List Char × List Char) :=
  match cs with
  | [] => parseBare []
  | c :: rest => if c = '"' then parseQuoted rest else parseBare (c :: rest)

/-- Parse one record: fields separated by commas, ended by LF or end of
input.  `fuel` bounds the number of fields (structural recursion). -/
def parseRecAux : Nat → List Char → Option (List (List Char) × List Char)
  | 0, _ => none
  | fuel + 1, cs =>
    match parseField cs with
    | none => none
    | some (f, r) =>
      match r with
      | [] => some ([f], [])
      | c :: r2 =>
        if c = '\n' then some ([f], r2)
        else if c = ',' then
          match parseRecAux fuel r2 with
          | none => none
          | some (fs, rest) => some (f :: fs, rest)
        else none

/-- Parse one CSV record from a string; `cs.length + 1` fuel always
suffices since every further field consumes the comma before it. -/
def parseRecordL (cs : List Char) : Option (List (List Char) × List Char) :=
  parseRecAux (cs.length + 1) cs

/-- String-level record parse. -/
def parseRecordStr (s : String) : Option (List String × String) :=
  match parseRecordL s.data with
  | none => none
  | some (fs, rest) => some (fs.map (⟨·⟩), ⟨rest⟩)

/-! ### Watermark store (`internal/state/state.go`) -/

/-- The update loop of `UpdateEntityTimestamp`: set `lastRunTime` on the
first entity with the given name and stop (`break`); `none` when no
entity matches (`found == false`). -/
def setFirstTimestamp : List EntityState → String → String → Option (List EntityState)
  | [], _, _ => none
  | e :: rest, name, ts =>
    if e.entity = name then some ({ e with lastRunTime := ts } :: rest)
    else
      match setFirstTimestamp rest name ts with
      | none => none
      | some rest' => some (e :: rest')

/-- The source `save`'s `sort.Slice(sorted, …Entity < …Entity)`: a sort of the entity
list by name.  (Go's sort is unstable; with the data model's unique
names the result is the same list.) -/
def sortEntities (es : List EntityState) : List EntityState :=
  es.insertionSort (fun a b => a.entity ≤ b.entity)

/-- Go `encoding/json` string escaping (HTML escaping on, as in
`json.Marshal`): quote, backslash, `<`, `>`, `&`, and control characters
are escaped, `\n`/`\r`/`\t` with their short forms. -/
def jsonEscapeChar (c : Char) : String :=
  if c = '"' then "\\\""
  else if c = '\\' then "\\\\"
  else if c = '\n' then "\\n"
  else if c = '\r' then "\\r"
  else if c = '\t' then "\\t"
  else if c.toNat < 0x20 then
    "\\u00" ++ String.singleton (Nat.digitChar (c.toNat / 16)) ++
      String.singleton (Nat.digitChar (c.toNat % 16))
  else if c = '<' then "\\u003c"
  else if c = '>' then "\\u003e"
  else if c = '&' then "\\u0026"
  else String.singleton c

/-- A JSON string literal for `s`. -/
def jsonString (s : String) : String :=
  "\"" ++ String.join (s.data.map jsonEscapeChar) ++ "\""

/-- Go `json.MarshalIndent` of one `EntityState` at one level of nesting
(2-space indent, field order `entity`, `lastRunTime`, `active`). -/
def marshalEntity (e : EntityState) : String :=
  "  \x7b\n    \"entity\": " ++ jsonString e.entity ++
    ",\n    \"lastRunTime\": " ++ jsonString e.lastRunTime ++
    ",\n    \"active\": " ++ (if e.active then "true" else "false") ++ "\n  \x7d"

/-- Go `json.MarshalIndent(entities, "", "  ")` for the entity slice. -/
def stateMarshal (es : List EntityState) : String :=
  if es = [] then "[]"
  else "[\n" ++ String.intercalate ",\n" (es.map marshalEntity) ++ "\n]"

/-! ### Atomicity of `save` (filesystem-trace model)

`save` performs exactly two filesystem operations that can touch the
state path: `os.WriteFile` of the marshalled bytes to the sibling
`path + ".tmp"` and `os.Rename` of the temp path over the real path.
The trace model makes interruption explicit: a run may stop between
operations, and a write interrupted mid-way leaves arbitrary partial
bytes at its own path (never any other), while a rename is atomic —
it either happened entirely or not at all. -/

/-- A filesystem: path to file content ( `none` = absent ). -/
def FSm := String → Option String

/-- Point update of a filesystem. -/
def fsSet (fs : FSm) (p : String) (v : Option String) : FSm :=
  fun q => if q = p then v else fs q

/-- The filesystem operations `save` issues. -/
inductive FsOp where
  | write (path content : String)
  | rename (src dst : String)

/-- Effect of one completed operation. -/
def applyOp (fs : FSm) : FsOp → FSm
  | .write p c => fsSet fs p (some c)
  | .rename src dst => fsSet (fsSet fs dst (fs src)) src none

/-- Effect of a completed operation sequence. -/
def applyOps (fs : FSm) (ops : List FsOp) : FSm :=
  ops.foldl applyOp fs

/-- The operation sequence of `save` for a store at `path` holding
`entities`: marshal the name-sorted list, write it to `path + ".tmp"`,
atomically rename the temp file over `path`.  (The S3 mirror push that
follows touches no local file.) -/
def saveOps (path : String) (entities : List EntityState) : List FsOp :=
  [.write (path ++ ".tmp") (stateMarshal (sortEntities entities)),
   .rename (path ++ ".tmp") path]

/-- Filesystems observable if the sequence is interrupted anywhere:
before any operation, after any prefix, or mid-write (arbitrary partial
bytes at the written path); a rename admits no intermediate state. -/
inductive interruptedRun : FSm → List FsOp → FSm → Prop
  | stop (fs : FSm) (ops : List FsOp) : interruptedRun fs ops fs
  | midWrite (fs : FSm) (p c junk : String) (ops : List FsOp) :
      interruptedRun fs (.write p c :: ops) (fsSet fs p (some junk))
  | next (fs : FSm) (op : FsOp) (ops : List FsOp) (fs' : FSm) :
      interruptedRun (applyOp fs op) ops fs' → interruptedRun fs (op :: ops) fs'

/-! ### Run model (exporter `Run` / `processEntity` / `executeQueryToCSV`)

The orchestrator is embedded as a state-passing function.  The
environment supplies every external effect the code consults: the clock
(each `time.Now()` call site is a separate reading), the SQL template
directory, `os.MkdirAll`, the Oracle query, and the success of the
filesystem and S3 operations of `save` and of the CSV upload.  The
state record keeps the in-memory entity list, the `state.json` content
on local disk and on the S3 mirror, the exported CSV files, the S3
objects, and — as an audit trail — the entity names for which
`QueryContext` was invoked. -/

/-- Static configuration relevant to a run. -/
structure Config where
  exportDir : String
  defaultDaysBack : Nat
  s3Prefix : String
deriving Repr, DecidableEq

/-- Outcome of `db.QueryContext` and the subsequent cursor: either the
query fails, or a cursor yields column names and fully scanned rows
(each cell scanned into a string slot) and then possibly an iteration
error from `rows.Err()`. -/
inductive QueryResult where
  | execError (msg : String)
  | cursor (cols : List String) (rows : List (List String)) (iterError : Option String)
deriving Repr, DecidableEq

/-- External world of one run. -/
structure RunEnv where
  /-- `time.Now().UTC()` captured once in `Run` (the shared `tillDate`). -/
  tillNow : Instant
  /-- `time.Now().UTC()` as read inside `getStartDate` while processing
  the named entity — a later reading of the same clock. -/
  entityNow : String → Instant
  /-- `os.ReadFile(sqlDir/<name>.sql)`: the template contents, `none`
  when missing. -/
  sqlFile : String → Option String
  /-- `os.MkdirAll` on the export directory succeeds. -/
  mkdirOk : Bool
  /-- The Oracle query, keyed by SQL text and the `startDate`/`tillDate`
  parameters. -/
  query : String → String → String → QueryResult
  /-- CSV destination is S3 (`e.s3 != nil && cfg.S3.Bucket != ""`). -/
  s3Enabled : Bool
  /-- The S3 CSV upload in `S3StreamingCSVWriter.Close` succeeds. -/
  csvUploadOk : Bool
  /-- State mirror configured (`f.s3 != nil && f.s3Key != ""`). -/
  stateS3 : Bool
  /-- `os.WriteFile` of the state temp file succeeds. -/
  stateWriteOk : Bool
  /-- `os.Rename` of the state temp file succeeds. -/
  stateRenameOk : Bool
  /-- `s3.UploadBytes` of the state file succeeds. -/
  stateS3UploadOk : Bool

/-- Mutable world of one run.  The state file and the export files live
at distinct configured paths, so they are kept in separate components
(`stateDisk` is the content of `state.json`, `files` maps export paths
to contents); `saveState` models the completed `save` call — the
temp-file intermediate states are covered by the trace model above. -/
structure RunState where
  entities : List EntityState
  stateDisk : Option String
  stateRemote : Option String
  files : FSm
  remote : List (String × String)
  queried : List String

/-- The source `state.File.GetActiveEntities`. -/
def getActiveEntities (es : List EntityState) : List EntityState :=
  es.filter (·.active)

/-- The source `state.File.save`: marshal the name-sorted list, write + rename the
local file, then — only if a mirror is configured — push to S3,
propagating an upload failure as an error of the whole persist. -/
def saveState (env : RunEnv) (rs : RunState) : RunState × Option String :=
  let data := stateMarshal (sortEntities rs.entities)
  if env.stateWriteOk = false then (rs, some "failed to write temp file")
  else if env.stateRenameOk = false then (rs, some "failed to rename temp file")
  else
    let rs1 := { rs with stateDisk := some data }
    if env.stateS3 ∧ env.stateS3UploadOk = false then
      (rs1, some "failed to upload state to S3")
    else if env.stateS3 then ({ rs1 with stateRemote := some data }, none)
    else (rs1, none)

/-- The source `state.File.UpdateEntityTimestamp`: set the first matching entity's
`lastRunTime` and persist; unknown names are an error before anything
is touched. -/
def updateEntityTimestamp (env : RunEnv) (rs : RunState) (name ts : String) :
    RunState × Option String :=
  match setFirstTimestamp rs.entities name ts with
  | none => (rs, some ("entity not found: " ++ name))
  | some es' => saveState env { rs with entities := es' }

/-- The source `getStartDate`: parse the prior watermark; an absent one (zero time)
falls back to `time.Now().UTC().AddDate(0, 0, -defaultDaysBack)` — a
fresh clock reading, not the run's captured `tillDate`.  (In UTC,
`AddDate(0, 0, -n)` subtracts exactly `n · 86400` seconds.) -/
def getStartDate (cfg : Config) (now : Instant) (e : EntityState) :
    Except String Instant :=
  match getLastRunTimeE e with
  | .error msg => .error msg
  | .ok t =>
    if t = zeroTime then .ok (now - (cfg.defaultDaysBack : Int) * 86400)
    else .ok t

/-- Go `strings.ReplaceAll(startDate, ":", "-")`. -/
def replaceColons (s : String) : String :=
  ⟨s.data.map fun c => if c = ':' then '-' else c⟩

/-- The source `getOutputPath`: `filepath.Join(exportDir, name__start.csv)` with the
colons of the start date replaced.  (`filepath.Join` additionally
normalizes redundant separators, which is the identity on the clean
paths this program builds.) -/
def getOutputPath (cfg : Config) (entityName startDate : String) : String :=
  cfg.exportDir ++ "/" ++ entityName ++ "__" ++ replaceColons startDate ++ ".csv"

/-- The key `cfg.S3.Key` for the CSV object of an entity: the normalized prefix
(already ending in `/` when nonempty) followed by
`<entity>/<entity>__<start>.csv` as built in `executeQueryToCSV`. -/
def s3CsvKey (cfg : Config) (entityName startDate : String) : String :=
  let fn := entityName ++ "/" ++ entityName ++ "__" ++ replaceColons startDate ++ ".csv"
  if cfg.s3Prefix = "" then fn else cfg.s3Prefix ++ fn

/-- The deferred `Close` of the CSV writer at every exit of
`executeQueryToCSV` (its error is discarded by `defer`).  The local
writer's close has no filesystem effect here.  The S3 writer's close
uploads the staged file and then deletes it; if the staged file was
already removed (zero-row path) the close fails before uploading, and
if the upload fails the staged file is kept as the local fallback. -/
def deferClose (cfg : Config) (env : RunEnv) (entityName startDate outPath : String)
    (rs : RunState) : RunState :=
  if env.s3Enabled then
    match rs.files outPath with
    | none => rs
    | some content =>
      if env.csvUploadOk then
        { rs with files := fsSet rs.files outPath none,
                  remote := rs.remote ++ [(s3CsvKey cfg entityName startDate, content)] }
      else rs
  else rs

/-- The full CSV text streamed for a cursor: the header record followed
by every scanned row (periodic flushing only batches writes and does
not change the final bytes). -/
def csvContent (cols : List String) (rows : List (List String)) : String :=
  writeRecordStr cols ++ String.join (rows.map writeScannedRecord)

/-- The source `executeQueryToCSV`: run the query (recording that this entity was
queried), create the output file and stream header and rows into it,
surface an iteration error, and remove the file again when the cursor
yielded no rows; the deferred writer close runs at every exit after the
writer exists. -/
def executeQueryToCSV (cfg : Config) (env : RunEnv)
    (entityName sqlContent startDate tillDate outPath : String) (rs : RunState) :
    RunState × Except String Nat :=
  let rs0 := { rs with queried := rs.queried ++ [entityName] }
  match env.query sqlContent startDate tillDate with
  | .execError msg => (rs0, .error ("query execution failed: " ++ msg))
  | .cursor cols rows iterError =>
    let rs1 := { rs0 with files := fsSet rs0.files outPath (some (csvContent cols rows)) }
    match iterError with
    | some msg =>
      (deferClose cfg env entityName startDate outPath rs1,
       .error ("row iteration error: " ++ msg))
    | none =>
      if rows.length = 0 then
        let rs2 := { rs1 with files := fsSet rs1.files outPath none }
        (deferClose cfg env entityName startDate outPath rs2, .ok 0)
      else
        (deferClose cfg env entityName startDate outPath rs1, .ok rows.length)

/-- An `EntityResult` for a failed entity. -/
def failRes (e : EntityState) (msg : String) : EntityResult :=
  { entity := e.entity, success := false, rowCount := 0, filePath := "", error := some msg }

/-- The source `processEntity`: start date, SQL template, output path, export
directory, query-to-CSV; any failure yields `success = false` with the
error, zero rows yield success with no file path, otherwise success
with the output path. -/
def processEntity (cfg : Config) (env : RunEnv) (e : EntityState)
    (tillDateStr : String) (rs : RunState) : RunState × EntityResult :=
  match getStartDate cfg (env.entityNow e.entity) e with
  | .error msg => (rs, failRes e ("failed to determine start date: " ++ msg))
  | .ok startDate =>
    let startDateStr := formatTS startDate
    match env.sqlFile e.entity with
    | none => (rs, failRes e "failed to load SQL file")
    | some sqlContent =>
      let outputFile := getOutputPath cfg e.entity startDateStr
      if env.mkdirOk = false then (rs, failRes e "failed to create output directory")
      else
        match executeQueryToCSV cfg env e.entity sqlContent startDateStr tillDateStr
            outputFile rs with
        | (rs1, .error msg) => (rs1, failRes e msg)
        | (rs1, .ok rowCount) =>
          if rowCount = 0 then
            (rs1, { entity := e.entity, success := true, rowCount := 0,
                    filePath := "", error := none })
          else
            (rs1, { entity := e.entity, success := true, rowCount := rowCount,
                    filePath := outputFile, error := none })

/-- The per-entity loop of `Run`: process each entity; on success commit
the shared `tillDateStr` watermark (aborting the run if the commit
fails), on failure record the result and stop — entities after the
failing one are never reached. -/
def runEntities (cfg : Config) (env : RunEnv) (tillDateStr : String) :
    List EntityState → RunState → RunState × List EntityResult × Option String
  | [], rs => (rs, [], none)
  | e :: rest, rs =>
    let pr := processEntity cfg env e tillDateStr rs
    if pr.2.success then
      let up := updateEntityTimestamp env pr.1 e.entity tillDateStr
      match up.2 with
      | some msg =>
        (up.1, [pr.2], some ("failed to update state for " ++ e.entity ++ ": " ++ msg))
      | none =>
        let rec' := runEntities cfg env tillDateStr rest up.1
        (rec'.1, pr.2 :: rec'.2.1, rec'.2.2)
    else
      (pr.1, [pr.2], some ("entity " ++ e.entity ++ " failed: " ++ pr.2.error.getD ""))

/-- The source `Exporter.Run`: capture `tillDate` once (UTC) and format it before
touching any entity, iterate the active entities, and aggregate the
counts exactly as the loop does (`ProcessedCount` per processed entity,
`SuccessCount` for successful processing even when the commit then
fails, `FailedCount` on failure, `SkippedCount` never set). -/
def runExport (cfg : Config) (env : RunEnv) (rs : RunState) :
    RunState × ExportResult × Option String :=
  let tillDateStr := formatTS env.tillNow
  let r := runEntities cfg env tillDateStr (getActiveEntities rs.entities) rs
  (r.1,
   { totalEntities := r.1.entities.length,
     processedCount := r.2.1.length,
     successCount := (r.2.1.filter (·.success)).length,
     failedCount := (r.2.1.filter (fun x => !x.success)).length,
     skippedCount := 0,
     results := r.2.1 },
   r.2.2)

/-! ### Concrete fixtures used by witnesses and counterexamples -/

/-- The empty filesystem. -/
def fsEmpty : FSm := fun _ => none

/-- A small configuration: local export directory, 30-day default
lookback (the shipped `DefaultDaysBack`), no S3 prefix. -/
def cfgW : Config := { exportDir := "exp", defaultDaysBack := 30, s3Prefix := "" }

/-- Active entity with no prior watermark. -/
def entA : EntityState := { entity := "acct", lastRunTime := "", active := true }

/-- Active entity with a prior watermark. -/
def entB : EntityState :=
  { entity := "bill", lastRunTime := "2025-01-01T00:00:00", active := true }

/-- Inactive entity. -/
def entD : EntityState :=
  { entity := "dormant", lastRunTime := "2020-01-01T00:00:00", active := false }

/-- A benign environment: the run is captured at 2025-01-15T00:00:00 UTC,
the per-entity clock reads 5 seconds later, every template exists, the
query yields one row, everything local, all I/O succeeds. -/
def envW : RunEnv := {
  tillNow := 1736899200
  entityNow := fun _ => 1736899205
  sqlFile := fun _ => some "SELECT 1"
  mkdirOk := true
  query := fun _ _ _ => .cursor ["id"] [["1"]] none
  s3Enabled := false
  csvUploadOk := true
  stateS3 := false
  stateWriteOk := true
  stateRenameOk := true
  stateS3UploadOk := true }

/-- Fresh run state over the given entities. -/
def rsOf (es : List EntityState) : RunState :=
  { entities := es, stateDisk := none, stateRemote := none, files := fsEmpty,
    remote := [], queried := [] }

/-- Environment whose query yields a cursor with zero rows. -/
def env5 : RunEnv := { envW with query := fun _ _ _ => .cursor ["id"] [] none }

/-- Environment where the `bill` entity's SQL template is missing. -/
def envC2w : RunEnv :=
  { envW with sqlFile := fun n => if n = "acct" then some "SELECT 1" else none }

/-- Environment where the atomic rename of the state file fails, so the
watermark commit errors after successful entity processing. -/
def envC2x : RunEnv := { envW with stateRenameOk := false }

/-- A filesystem holding an old state file. -/
def fs6 : FSm := fsSet fsEmpty "state.json" (some "OLD")

/-- Pointwise watermark update: set `lastRunTime := ts` on the entities whose
name is listed, leave the rest untouched (how a sequence of successful
`UpdateEntityTimestamp` calls acts on a store with unique names). -/
def updIf (upd : List String) (ts : String) (x : EntityState) : EntityState :=
  if x.entity ∈ upd then { x with lastRunTime := ts } else x

/-- Relation `processedOk cfg env till pre rs rs' res`: every entity of `pre`, in
order and starting from state `rs`, processes successfully and has its
watermark commit succeed, ending in state `rs'` with recorded results
`res` — the successful prefix of a run. -/
inductive processedOk (cfg : Config) (env : RunEnv) (till : String) :
    List EntityState → RunState → RunState → List EntityResult → Prop
  | nil (rs : RunState) : processedOk cfg env till [] rs rs []
  | cons (e : EntityState) (rest : List EntityState) (rs rs1 rs2 rs' : RunState)
      (r : EntityResult) (res : List EntityResult)
      (hp : processEntity cfg env e till rs = (rs1, r))
      (hs : r.success = true)
      (hu : updateEntityTimestamp env rs1 e.entity till = (rs2, none))
      (htail : processedOk cfg env till rest rs2 rs' res) :
      processedOk cfg env till (e :: rest) rs rs' (r :: res)

instance : IsTotal EntityState (fun a b => a.entity ≤ b.entity) :=
  ⟨fun a b => le_total a.entity b.entity⟩

instance : IsTrans EntityState (fun a b => a.entity ≤ b.entity) :=
  ⟨fun _ _ _ hab hbc => le_trans hab hbc⟩

/-! ### Helper lemmas -/

theorem setFirstTimestamp_eq_none {l : List EntityState} {name ts : String}
    (h : ∀ e ∈ l, e.entity ≠ name) : setFirstTimestamp l name ts = none := by
  induction l with
  | nil => rfl
  | cons e rest ih =>
    have h1 : e.entity ≠ name := h e (List.mem_cons_self ..)
    have h2 : ∀ x ∈ rest, x.entity ≠ name := fun x hx => h x (List.mem_cons_of_mem _ hx)
    simp [setFirstTimestamp, h1, ih h2]

/-! ### C10 — updating an unknown entity -/

/-- C10: `UpdateEntityTimestamp` with a name not present in the store
returns the `entity not found` error and leaves the store — in-memory
entity list, state file on disk, remote mirror — completely unchanged:
no save is attempted. -/
theorem c10_update_unknown_entity (env : RunEnv) (rs : RunState) (name ts : String)
    (h : ∀ e ∈ rs.entities, e.entity ≠ name) :
    updateEntityTimestamp env rs name ts = (rs, some ("entity not found: " ++ name)) := by
  simp [updateEntityTimestamp, setFirstTimestamp_eq_none h]

/-- Witness for C10 at a concrete store and name. -/
theorem c10_update_unknown_entity_witness :
    updateEntityTimestamp envW (rsOf [entA, entD]) "ghost" "2025-01-15T00:00:00"
      = (rsOf [entA, entD], some ("entity not found: " ++ "ghost")) :=
  c10_update_unknown_entity envW (rsOf [entA, entD]) "ghost" "2025-01-15T00:00:00"
    (by decide)

/-! ### C8 — NULL and empty string serialize identically -/

/-- C8: at every row position, a NULL value and an empty-string value
serialize to the byte-identical CSV record, the field in question being
an empty unquoted field; moreover the scanned-row path (which collapses
empty scans to NULL) writes exactly the raw scanned strings. -/
theorem c8_null_empty_field_identical (pre post : List GoValue) (rv : List String) :
    writeRowValues (pre ++ GoValue.vnull :: post)
      = writeRowValues (pre ++ GoValue.vstr "" :: post)
    ∧ writeFieldL (formatValue GoValue.vnull).data = []
    ∧ fieldNeedsQuotesL (formatValue GoValue.vnull).data = false
    ∧ formatValue GoValue.vnull = formatValue (GoValue.vstr "")
    ∧ writeScannedRecord rv = writeRecordStr rv := by
  refine ⟨by simp [writeRowValues, formatValue], by decide, by decide, by decide, ?_⟩
  have h : ∀ v : String, formatValue (if v = "" then .vnull else .vstr v) = v := by
    intro v
    by_cases hv : v = "" <;> simp [formatValue, hv]
  simp [writeScannedRecord, writeRowValues, List.map_map, Function.comp_def, h]

/-! ### C4 — failed S3 state push is fatal in the code -/

/-- C4 (divergence witness): with the S3 mirror configured and the state
upload failing, `save` returns the upload error even though the local
write and rename succeeded, `UpdateEntityTimestamp` propagates it, and
`Run` aborts after the first entity — the second active entity is never
processed — while the local state file holds the new content.  The
repository's own documentation (docs/s3-guide.md, "State Upload
Failure") instead promises a logged warning and a continuing run. -/
theorem c4_state_upload_failure_aborts :
    (updateEntityTimestamp { envW with stateS3 := true, stateS3UploadOk := false }
        (rsOf [entA, entB]) "acct" "2025-01-15T00:00:00").2
      = some "failed to upload state to S3"
    ∧ (runExport cfgW { envW with stateS3 := true, stateS3UploadOk := false }
        (rsOf [entA, entB])).2.2
      = some "failed to update state for acct: failed to upload state to S3"
    ∧ (runExport cfgW { envW with stateS3 := true, stateS3UploadOk := false }
        (rsOf [entA, entB])).2.1.results.length = 1
    ∧ (runExport cfgW { envW with stateS3 := true, stateS3UploadOk := false }
        (rsOf [entA, entB])).1.stateDisk
      = some (stateMarshal (sortEntities
          (runExport cfgW { envW with stateS3 := true, stateS3UploadOk := false }
            (rsOf [entA, entB])).1.entities))
    ∧ (runExport cfgW { envW with stateS3 := true, stateS3UploadOk := false }
        (rsOf [entA, entB])).1.stateRemote = none :=
  ⟨rfl, rfl, rfl, rfl, rfl⟩

/-! ### C3 — lookback start is taken from a fresh clock reading -/

/-- C3 counterexample: a run captured at `end` = 2025-01-15T00:00:00 UTC
whose entity (no prior watermark, `defaultLookbackDays = 30`) is
processed 5 seconds later computes start = 2024-12-16T00:00:05 — the
artifact is named from it — whereas `end − 30 days` is
2024-12-16T00:00:00: the start is anchored to the fresh `time.Now()`
reading in `getStartDate`, not to the run's captured `end`. -/
theorem c3_counterexample :
    getStartDate cfgW (envW.entityNow "acct") entA
      = .ok (envW.tillNow + 5 - 30 * 86400)
    ∧ envW.tillNow + 5 - 30 * 86400 ≠ envW.tillNow - 30 * 86400
    ∧ (runExport cfgW envW (rsOf [entA])).2.2 = none
    ∧ (runExport cfgW envW (rsOf [entA])).2.1.results
      = [{ entity := "acct", success := true, rowCount := 1,
           filePath := "exp/acct__2024-12-16T00-00-05.csv", error := none }]
    ∧ formatTS (envW.tillNow - 30 * 86400) = "2024-12-16T00:00:00"
    ∧ getOutputPath cfgW "acct" (formatTS (envW.tillNow - 30 * 86400))
      = "exp/acct__2024-12-16T00-00-00.csv"
    ∧ "exp/acct__2024-12-16T00-00-05.csv" ≠ "exp/acct__2024-12-16T00-00-00.csv" :=
  ⟨rfl, by decide, rfl, rfl, rfl, rfl, by decide⟩

/-- C3 (amended): for an entity with an absent prior watermark (empty or
`"null"`), the computed window start is exactly the fresh clock reading
taken while that entity is processed minus `defaultLookbackDays` days —
which coincides with `end − defaultLookbackDays` only when that reading
equals the run's captured `end`. -/
theorem c3_amended_lookback_from_processing_clock (cfg : Config) (now : Instant)
    (e : EntityState) (h : e.lastRunTime = "" ∨ e.lastRunTime = "null") :
    getStartDate cfg now e = .ok (now - (cfg.defaultDaysBack : Int) * 86400) := by
  have hz : getLastRunTimeE e = .ok zeroTime := by
    simp [getLastRunTimeE, h]
  simp [getStartDate, hz]

/-- Witness for the amended C3 at a concrete entity and clock. -/
theorem c3_amended_witness :
    getStartDate cfgW 1736899205 entA = .ok (1736899205 - (30 : Int) * 86400) :=
  c3_amended_lookback_from_processing_clock cfgW 1736899205 entA (Or.inl rfl)

/-! ### C5 — zero rows leave no artifact -/

/-- C5: when the cursor yields zero rows (and no iteration error), the
entity's result is success with `rowCount = 0` and an empty output
location, the output path holds no file after processing (the freshly
created file is removed before the function returns, and the deferred
S3 close uploads nothing because the staged file is already gone), the
remote object store is untouched, and no other local path changes. -/
theorem c5_zero_rows_no_artifact (cfg : Config) (env : RunEnv) (e : EntityState)
    (till : String) (rs : RunState) (sd : Instant) (q : String) (cols : List String)
    (hstart : getStartDate cfg (env.entityNow e.entity) e = .ok sd)
    (hsql : env.sqlFile e.entity = some q)
    (hmk : env.mkdirOk = true)
    (hq : env.query q (formatTS sd) till = .cursor cols [] none) :
    (processEntity cfg env e till rs).2
      = { entity := e.entity, success := true, rowCount := 0, filePath := "",
          error := none }
    ∧ (processEntity cfg env e till rs).1.files
        (getOutputPath cfg e.entity (formatTS sd)) = none
    ∧ (processEntity cfg env e till rs).1.remote = rs.remote
    ∧ ∀ p, p ≠ getOutputPath cfg e.entity (formatTS sd) →
        (processEntity cfg env e till rs).1.files p = rs.files p := by
  have hex : executeQueryToCSV cfg env e.entity q (formatTS sd) till
      (getOutputPath cfg e.entity (formatTS sd)) rs
      = ({ rs with
            queried := rs.queried ++ [e.entity],
            files := fsSet (fsSet rs.files (getOutputPath cfg e.entity (formatTS sd))
              (some (csvContent cols []))) (getOutputPath cfg e.entity (formatTS sd))
              none }, .ok 0) := by
    simp only [executeQueryToCSV, hq, List.length_nil, if_pos rfl]
    cases hs3 : env.s3Enabled <;> simp [deferClose, hs3, fsSet]
  have hpe : processEntity cfg env e till rs
      = ({ rs with
            queried := rs.queried ++ [e.entity],
            files := fsSet (fsSet rs.files (getOutputPath cfg e.entity (formatTS sd))
              (some (csvContent cols []))) (getOutputPath cfg e.entity (formatTS sd))
              none },
         { entity := e.entity, success := true, rowCount := 0, filePath := "",
           error := none }) := by
    simp only [processEntity, hstart, hsql, hmk, Bool.true_eq_false, if_neg,
      ite_false, hex]
    simp
  refine ⟨by rw [hpe], by rw [hpe]; simp [fsSet], by rw [hpe], ?_⟩
  intro p hp
  rw [hpe]
  simp [fsSet, hp]

/-- Witness for C5 at a concrete entity and zero-row query. -/
theorem c5_zero_rows_no_artifact_witness :
    (processEntity cfgW env5 entA "2025-01-15T00:00:00" (rsOf [entA])).2
      = { entity := "acct", success := true, rowCount := 0, filePath := "",
          error := none }
    ∧ (processEntity cfgW env5 entA "2025-01-15T00:00:00" (rsOf [entA])).1.files
        (getOutputPath cfgW "acct" (formatTS 1734307205)) = none
    ∧ (processEntity cfgW env5 entA "2025-01-15T00:00:00" (rsOf [entA])).1.remote
      = (rsOf [entA]).remote :=
  have h := c5_zero_rows_no_artifact cfgW env5 entA "2025-01-15T00:00:00"
    (rsOf [entA]) 1734307205 "SELECT 1" ["id"] rfl rfl rfl rfl
  ⟨h.1, h.2.1, h.2.2.1⟩

/-! ### C9 — CSV round-trip for values forcing quoting -/

theorem fieldNeedsQuotesL_of_quote {cs : List Char} (hq : '"' ∈ cs) :
    fieldNeedsQuotesL cs = true := by
  have h1 : cs ≠ [] := by rintro rfl; simp at hq
  by_cases h2 : cs = ['\\', '.']
  · simp [fieldNeedsQuotesL, h2]
  · simp [fieldNeedsQuotesL, h1, h2]
    exact Or.inl ⟨'"', hq, Or.inr (Or.inl rfl)⟩

theorem parseQuoted_escape (s : List Char) :
    ∀ rest : List Char, rest.head? ≠ some '"' →
      parseQuoted (escapeQuotedL s ++ '"' :: rest) = some (s, rest) := by
  induction s with
  | nil =>
    intro rest hr
    cases rest with
    | nil => simp [escapeQuotedL, parseQuoted]
    | cons c r =>
      have hc : ¬(c = '"') := by simpa using hr
      simp [escapeQuotedL, parseQuoted, hc]
  | cons c t ih =>
    intro rest hr
    by_cases hc : c = '"'
    · subst hc
      simp only [escapeQuotedL, if_pos rfl, List.cons_append]
      rw [parseQuoted.eq_def]
      simp [ih rest hr]
    · simp only [escapeQuotedL, hc, if_false, List.cons_append, ite_false]
      rw [parseQuoted.eq_def]
      simp [hc, ih rest hr]

/-- C9: a string value containing a comma, a quote and an embedded
newline, written as a CSV row (`WriteRow` with a single string value:
the field is quoted, internal quotes doubled, LF terminates the record)
and parsed back by an RFC 4180 reader, yields exactly the original
value — one field, nothing left over. -/
theorem c9_csv_roundtrip (s : String)
    (hc : ',' ∈ s.data) (hq : '"' ∈ s.data) (hn : '\n' ∈ s.data) :
    parseRecordStr (writeRowValues [GoValue.vstr s]) = some ([s], "") := by
  have hfq : fieldNeedsQuotesL s.data = true := fieldNeedsQuotesL_of_quote hq
  have hw : (writeRowValues [GoValue.vstr s]).data
      = '"' :: (escapeQuotedL s.data ++ '"' :: ['\n']) := by
    show (writeRecordStr [s]).data = _
    simp [writeRecordStr, writeRecordL, writeFieldL, hfq, List.intercalate]
  have hpq : parseQuoted (escapeQuotedL s.data ++ '"' :: ['\n'])
      = some (s.data, ['\n']) :=
    parseQuoted_escape s.data ['\n'] (by decide)
  have hpf : parseField ((writeRowValues [GoValue.vstr s]).data)
      = some (s.data, ['\n']) := by
    rw [hw]
    simp [parseField, hpq]
  have hlen : ((writeRowValues [GoValue.vstr s]).data).length
      = (escapeQuotedL s.data).length + 3 := by
    rw [hw]; simp
  have hrec : parseRecordL ((writeRowValues [GoValue.vstr s]).data)
      = some ([s.data], []) := by
    unfold parseRecordL
    rw [hlen]
    simp [parseRecAux, hpf]
  unfold parseRecordStr
  rw [hrec]
  rfl

/-- Witness for C9 at a value containing a comma, a quote and a
newline. -/
theorem c9_csv_roundtrip_witness :
    parseRecordStr (writeRowValues [GoValue.vstr "a,\"b\"\nc"])
      = some (["a,\"b\"\nc"], "") :=
  c9_csv_roundtrip "a,\"b\"\nc" (by decide) (by decide) (by decide)

/-! ### C6 — atomic watermark persistence -/

theorem tmpPath_ne (p : String) : p ++ ".tmp" ≠ p := by
  intro h
  have hlen := congrArg String.length h
  rw [String.length_append] at hlen
  have h4 : (".tmp" : String).length = 4 := rfl
  rw [h4] at hlen
  omega

/-- C6: every persist serializes the full, name-sorted entity list
(`sortEntities` is a permutation of the store, pairwise sorted by
name), writes it to the sibling temp path and atomically renames it
over the real path; consequently at every interruption point of the
operation sequence the state path holds either the complete old content
or the complete new content, and the completed sequence leaves the new
content. -/
theorem c6_save_atomic (fs : FSm) (path : String) (es : List EntityState)
    (fs' : FSm) (h : interruptedRun fs (saveOps path es) fs') :
    (fs' path = fs path ∨ fs' path = some (stateMarshal (sortEntities es)))
    ∧ applyOps fs (saveOps path es) path = some (stateMarshal (sortEntities es))
    ∧ List.Pairwise (fun a b => a.entity ≤ b.entity) (sortEntities es)
    ∧ (sortEntities es).Perm es := by
  have hne : ¬(path = path ++ ".tmp") := fun hp => tmpPath_ne path hp.symm
  refine ⟨?_, ?_, List.sorted_insertionSort _ es, List.perm_insertionSort _ es⟩
  · cases h with
    | stop => exact Or.inl rfl
    | midWrite _ _ _ junk => exact Or.inl (by simp [fsSet, hne])
    | next _ _ _ _ h1 =>
      cases h1 with
      | stop => exact Or.inl (by simp [applyOp, fsSet, hne])
      | next _ _ _ _ h2 =>
        cases h2 with
        | stop => exact Or.inr (by simp [applyOp, fsSet, hne])
  · simp [applyOps, saveOps, applyOp, fsSet, hne]

/-- Witness for C6: a run interrupted in the middle of the temp-file
write leaves the old state file untouched. -/
theorem c6_save_atomic_witness :
    fsSet fs6 ("state.json" ++ ".tmp") (some "JUNK") "state.json" = fs6 "state.json"
    ∨ fsSet fs6 ("state.json" ++ ".tmp") (some "JUNK") "state.json"
      = some (stateMarshal (sortEntities [entB, entA])) :=
  (c6_save_atomic fs6 "state.json" [entB, entA] _
    (interruptedRun.midWrite fs6 ("state.json" ++ ".tmp")
      (stateMarshal (sortEntities [entB, entA])) "JUNK"
      [.rename ("state.json" ++ ".tmp") "state.json"])).1

/-! ### Structure of the run loop -/

theorem updIf_entity (u : List String) (t : String) (x : EntityState) :
    (updIf u t x).entity = x.entity := by
  unfold updIf; split <;> rfl

theorem updIf_active (u : List String) (t : String) (x : EntityState) :
    (updIf u t x).active = x.active := by
  unfold updIf; split <;> rfl

theorem map_updIf_nil (t : String) (l : List EntityState) :
    l.map (updIf [] t) = l := by
  have h : l.map (updIf [] t) = l.map id :=
    List.map_congr_left fun x _ => by simp [updIf]
  rw [h, List.map_id]

theorem updIf_updIf (u : List String) (a t : String) (x : EntityState) :
    updIf u t (updIf [a] t x) = updIf (a :: u) t x := by
  by_cases h1 : x.entity = a
  · by_cases h2 : x.entity ∈ u <;>
      simp [updIf, h1, h2]
  · by_cases h2 : x.entity ∈ u <;>
      simp [updIf, h1, h2]

theorem map_updIf_names (u : List String) (t : String) (l : List EntityState) :
    (l.map (updIf u t)).map (·.entity) = l.map (·.entity) := by
  rw [List.map_map]
  exact List.map_congr_left fun x _ => updIf_entity u t x

theorem setFirstTimestamp_some_nodup {l : List EntityState} {name ts : String}
    {l' : List EntityState} (hnd : (l.map (·.entity)).Nodup)
    (h : setFirstTimestamp l name ts = some l') :
    l' = l.map (updIf [name] ts) := by
  induction l generalizing l' with
  | nil => simp [setFirstTimestamp] at h
  | cons e rest ih =>
    rw [List.map_cons, List.nodup_cons] at hnd
    by_cases he : e.entity = name
    · rw [setFirstTimestamp, if_pos he] at h
      cases h
      have hrest : rest.map (updIf [name] ts) = rest := by
        have h2 : rest.map (updIf [name] ts) = rest.map id := by
          apply List.map_congr_left
          intro x hx
          have hx2 : x.entity ≠ name := fun hxn =>
            hnd.1 (he ▸ hxn ▸ List.mem_map_of_mem _ hx)
          simp [updIf, hx2]
        rw [h2, List.map_id]
      simp [updIf, he, hrest]
    · rw [setFirstTimestamp, if_neg he] at h
      cases hr : setFirstTimestamp rest name ts with
      | none => rw [hr] at h; exact absurd h (by simp)
      | some rest' =>
        rw [hr] at h
        cases h
        rw [ih hnd.2 hr]
        simp [updIf, he]

theorem saveState_frame (env : RunEnv) (rs : RunState) :
    (saveState env rs).1.entities = rs.entities
    ∧ (saveState env rs).1.files = rs.files
    ∧ (saveState env rs).1.remote = rs.remote
    ∧ (saveState env rs).1.queried = rs.queried := by
  unfold saveState
  split <;> [skip; split] <;> [skip; skip; split] <;> [skip; skip; skip; split] <;>
    exact ⟨rfl, rfl, rfl, rfl⟩

theorem deferClose_frame (cfg : Config) (env : RunEnv) (n sd out : String)
    (rs : RunState) :
    (deferClose cfg env n sd out rs).entities = rs.entities
    ∧ (deferClose cfg env n sd out rs).stateDisk = rs.stateDisk
    ∧ (deferClose cfg env n sd out rs).stateRemote = rs.stateRemote
    ∧ (deferClose cfg env n sd out rs).queried = rs.queried := by
  unfold deferClose
  split
  · split
    · exact ⟨rfl, rfl, rfl, rfl⟩
    · split <;> exact ⟨rfl, rfl, rfl, rfl⟩
  · exact ⟨rfl, rfl, rfl, rfl⟩

theorem executeQueryToCSV_frame (cfg : Config) (env : RunEnv)
    (n q sd td out : String) (rs : RunState) :
    (executeQueryToCSV cfg env n q sd td out rs).1.entities = rs.entities
    ∧ (executeQueryToCSV cfg env n q sd td out rs).1.stateDisk = rs.stateDisk
    ∧ (executeQueryToCSV cfg env n q sd td out rs).1.stateRemote = rs.stateRemote
    ∧ (executeQueryToCSV cfg env n q sd td out rs).1.queried = rs.queried ++ [n] := by
  unfold executeQueryToCSV
  cases env.query q sd td with
  | execError msg => exact ⟨rfl, rfl, rfl, rfl⟩
  | cursor cols rows iterError =>
    cases iterError with
    | some msg =>
      have h := deferClose_frame cfg env n sd out
        { rs with
            queried := rs.queried ++ [n],
            files := fsSet rs.files out (some (csvContent cols rows)) }
      exact ⟨h.1, h.2.1, h.2.2.1, h.2.2.2⟩
    | none =>
      by_cases hz : rows.length = 0
      · simp only [hz, if_pos rfl]
        have h := deferClose_frame cfg env n sd out
          { rs with
              queried := rs.queried ++ [n],
              files := fsSet (fsSet rs.files out (some (csvContent cols rows))) out none }
        exact ⟨h.1, h.2.1, h.2.2.1, h.2.2.2⟩
      · simp only [hz, if_neg hz, ite_false]
        have h := deferClose_frame cfg env n sd out
          { rs with
              queried := rs.queried ++ [n],
              files := fsSet rs.files out (some (csvContent cols rows)) }
        exact ⟨h.1, h.2.1, h.2.2.1, h.2.2.2⟩

theorem processEntity_frame (cfg : Config) (env : RunEnv) (e : EntityState)
    (till : String) (rs : RunState) :
    (processEntity cfg env e till rs).1.entities = rs.entities
    ∧ (processEntity cfg env e till rs).1.stateDisk = rs.stateDisk
    ∧ (processEntity cfg env e till rs).1.stateRemote = rs.stateRemote
    ∧ ((processEntity cfg env e till rs).1.queried = rs.queried
       ∨ (processEntity cfg env e till rs).1.queried = rs.queried ++ [e.entity]) := by
  unfold processEntity
  cases getStartDate cfg (env.entityNow e.entity) e with
  | error msg => exact ⟨rfl, rfl, rfl, Or.inl rfl⟩
  | ok startDate =>
    cases env.sqlFile e.entity with
    | none => exact ⟨rfl, rfl, rfl, Or.inl rfl⟩
    | some sqlContent =>
      by_cases hmk : env.mkdirOk = false
      · simp only [hmk, if_pos rfl]
        exact ⟨rfl, rfl, rfl, Or.inl rfl⟩
      · simp only [if_neg hmk]
        have h := executeQueryToCSV_frame cfg env e.entity sqlContent
          (formatTS startDate) till (getOutputPath cfg e.entity (formatTS startDate)) rs
        cases hex : executeQueryToCSV cfg env e.entity sqlContent
            (formatTS startDate) till (getOutputPath cfg e.entity (formatTS startDate)) rs with
        | mk rs1 res =>
          rw [hex] at h
          cases res with
          | error msg => exact ⟨h.1, h.2.1, h.2.2.1, Or.inr h.2.2.2⟩
          | ok rowCount =>
            by_cases hz : rowCount = 0
            · simp only [hz, if_pos rfl]
              exact ⟨h.1, h.2.1, h.2.2.1, Or.inr h.2.2.2⟩
            · simp only [if_neg hz]
              exact ⟨h.1, h.2.1, h.2.2.1, Or.inr h.2.2.2⟩

theorem processEntity_fail_error (cfg : Config) (env : RunEnv) (e : EntityState)
    (till : String) (rs : RunState)
    (h : (processEntity cfg env e till rs).2.success = false) :
    (processEntity cfg env e till rs).2.error.isSome = true := by
  cases hgs : getStartDate cfg (env.entityNow e.entity) e with
  | error msg => simp [processEntity, hgs, failRes]
  | ok startDate =>
    cases hsql : env.sqlFile e.entity with
    | none => simp [processEntity, hgs, hsql, failRes]
    | some sqlContent =>
      by_cases hmk : env.mkdirOk = false
      · simp [processEntity, hgs, hsql, hmk, failRes]
      · cases hex : executeQueryToCSV cfg env e.entity sqlContent
            (formatTS startDate) till (getOutputPath cfg e.entity (formatTS startDate)) rs with
        | mk rs1 res =>
          cases res with
          | error msg => simp [processEntity, hgs, hsql, if_neg hmk, hex, failRes]
          | ok rowCount =>
            exfalso
            simp only [processEntity, hgs, hsql, if_neg hmk, hex] at h
            by_cases hz : rowCount = 0
            · rw [if_pos hz] at h; simp at h
            · rw [if_neg hz] at h; simp at h

theorem runEntities_nil (cfg : Config) (env : RunEnv) (till : String) (rs : RunState) :
    runEntities cfg env till [] rs = (rs, [], none) := rfl

theorem runEntities_cons_fail (cfg : Config) (env : RunEnv) (till : String)
    (e : EntityState) (es : List EntityState) (rs : RunState)
    (h : (processEntity cfg env e till rs).2.success = false) :
    runEntities cfg env till (e :: es) rs
      = ((processEntity cfg env e till rs).1, [(processEntity cfg env e till rs).2],
         some ("entity " ++ e.entity ++ " failed: "
           ++ (processEntity cfg env e till rs).2.error.getD "")) := by
  simp [runEntities, h]

theorem runEntities_cons_commitfail (cfg : Config) (env : RunEnv) (till : String)
    (e : EntityState) (es : List EntityState) (rs : RunState) (msg : String)
    (hs : (processEntity cfg env e till rs).2.success = true)
    (hu : (updateEntityTimestamp env (processEntity cfg env e till rs).1
        e.entity till).2 = some msg) :
    runEntities cfg env till (e :: es) rs
      = ((updateEntityTimestamp env (processEntity cfg env e till rs).1 e.entity till).1,
         [(processEntity cfg env e till rs).2],
         some ("failed to update state for " ++ e.entity ++ ": " ++ msg)) := by
  simp [runEntities, hs, hu]

theorem runEntities_cons_ok (cfg : Config) (env : RunEnv) (till : String)
    (e : EntityState) (es : List EntityState) (rs : RunState)
    (hs : (processEntity cfg env e till rs).2.success = true)
    (hu : (updateEntityTimestamp env (processEntity cfg env e till rs).1
        e.entity till).2 = none) :
    runEntities cfg env till (e :: es) rs
      = ((runEntities cfg env till es
            (updateEntityTimestamp env (processEntity cfg env e till rs).1
              e.entity till).1).1,
         (processEntity cfg env e till rs).2
           :: (runEntities cfg env till es
                (updateEntityTimestamp env (processEntity cfg env e till rs).1
                  e.entity till).1).2.1,
         (runEntities cfg env till es
            (updateEntityTimestamp env (processEntity cfg env e till rs).1
              e.entity till).1).2.2) := by
  simp [runEntities, hs, hu]

theorem runEntities_shape (cfg : Config) (env : RunEnv) (till : String) :
    ∀ (es : List EntityState) (rs : RunState),
      (rs.entities.map (·.entity)).Nodup →
      ∃ upd q, (∀ n ∈ upd, n ∈ es.map (·.entity))
        ∧ (∀ n ∈ q, n ∈ es.map (·.entity))
        ∧ (runEntities cfg env till es rs).1.entities = rs.entities.map (updIf upd till)
        ∧ (runEntities cfg env till es rs).1.queried = rs.queried ++ q := by
  intro es
  induction es with
  | nil =>
    intro rs _
    refine ⟨[], [], by simp, by simp, ?_, ?_⟩
    · rw [runEntities_nil]
      exact (map_updIf_nil till rs.entities).symm
    · rw [runEntities_nil]; simp
  | cons e rest ih =>
    intro rs hnd
    have hpf := processEntity_frame cfg env e till rs
    obtain ⟨q0, hq0sub, hq0⟩ : ∃ q0, (∀ n ∈ q0, n = e.entity) ∧
        (processEntity cfg env e till rs).1.queried = rs.queried ++ q0 := by
      rcases hpf.2.2.2 with h | h
      · exact ⟨[], by simp, by simpa using h⟩
      · exact ⟨[e.entity], by simp, h⟩
    cases hs : (processEntity cfg env e till rs).2.success with
    | false =>
      refine ⟨[], q0, by simp, fun n hn => by rw [hq0sub n hn]; simp, ?_, ?_⟩
      · rw [runEntities_cons_fail cfg env till e rest rs hs]
        exact hpf.1.trans (map_updIf_nil till rs.entities).symm
      · rw [runEntities_cons_fail cfg env till e rest rs hs]
        exact hq0
    | true =>
      have hndp : ((processEntity cfg env e till rs).1.entities.map (·.entity)).Nodup := by
        rw [hpf.1]; exact hnd
      cases hu : (updateEntityTimestamp env (processEntity cfg env e till rs).1
          e.entity till).2 with
      | some msg =>
        cases hsf : setFirstTimestamp (processEntity cfg env e till rs).1.entities
            e.entity till with
        | none =>
          have hup : (updateEntityTimestamp env (processEntity cfg env e till rs).1
              e.entity till).1 = (processEntity cfg env e till rs).1 := by
            simp [updateEntityTimestamp, hsf]
          refine ⟨[], q0, by simp, fun n hn => by rw [hq0sub n hn]; simp, ?_, ?_⟩
          · rw [runEntities_cons_commitfail cfg env till e rest rs msg hs hu, hup]
            exact hpf.1.trans (map_updIf_nil till rs.entities).symm
          · rw [runEntities_cons_commitfail cfg env till e rest rs msg hs hu, hup]
            exact hq0
        | some l' =>
          have hl' : l' = rs.entities.map (updIf [e.entity] till) := by
            have h2 := setFirstTimestamp_some_nodup hndp hsf
            rw [h2, hpf.1]
          have hup1 : (updateEntityTimestamp env (processEntity cfg env e till rs).1
              e.entity till).1.entities = l' := by
            simp only [updateEntityTimestamp, hsf]
            exact (saveState_frame env _).1
          have hupq : (updateEntityTimestamp env (processEntity cfg env e till rs).1
              e.entity till).1.queried = rs.queried ++ q0 := by
            simp only [updateEntityTimestamp, hsf]
            exact (saveState_frame env _).2.2.2.trans hq0
          refine ⟨[e.entity], q0, by simp, fun n hn => by rw [hq0sub n hn]; simp, ?_, ?_⟩
          · rw [runEntities_cons_commitfail cfg env till e rest rs msg hs hu, hup1, hl']
          · rw [runEntities_cons_commitfail cfg env till e rest rs msg hs hu, hupq]
      | none =>
        cases hsf : setFirstTimestamp (processEntity cfg env e till rs).1.entities
            e.entity till with
        | none =>
          exfalso
          have h2 : (updateEntityTimestamp env (processEntity cfg env e till rs).1
              e.entity till).2 = some ("entity not found: " ++ e.entity) := by
            simp [updateEntityTimestamp, hsf]
          rw [hu] at h2
          exact absurd h2 (by simp)
        | some l' =>
          have hl' : l' = rs.entities.map (updIf [e.entity] till) := by
            have h2 := setFirstTimestamp_some_nodup hndp hsf
            rw [h2, hpf.1]
          have hup1 : (updateEntityTimestamp env (processEntity cfg env e till rs).1
              e.entity till).1.entities = l' := by
            simp only [updateEntityTimestamp, hsf]
            exact (saveState_frame env _).1
          have hupq : (updateEntityTimestamp env (processEntity cfg env e till rs).1
              e.entity till).1.queried = rs.queried ++ q0 := by
            simp only [updateEntityTimestamp, hsf]
            exact (saveState_frame env _).2.2.2.trans hq0
          have hnd2 : (((updateEntityTimestamp env (processEntity cfg env e till rs).1
              e.entity till).1).entities.map (·.entity)).Nodup := by
            rw [hup1, hl', map_updIf_names]
            exact hnd
          obtain ⟨upd', q', ha1, ha2, ha3, ha4⟩ := ih
            (updateEntityTimestamp env (processEntity cfg env e till rs).1 e.entity till).1
            hnd2
          refine ⟨e.entity :: upd', q0 ++ q', ?_, ?_, ?_, ?_⟩
          · intro n hn
            rcases List.mem_cons.mp hn with rfl | hn2
            · simp
            · exact List.mem_cons.mpr (Or.inr (ha1 n hn2))
          · intro n hn
            rcases List.mem_append.mp hn with hn2 | hn2
            · rw [hq0sub n hn2]; simp
            · exact List.mem_cons.mpr (Or.inr (ha2 n hn2))
          · rw [runEntities_cons_ok cfg env till e rest rs hs hu, ha3, hup1, hl',
              List.map_map]
            exact List.map_congr_left fun x _ => updIf_updIf upd' e.entity till x
          · rw [runEntities_cons_ok cfg env till e rest rs hs hu, ha4, hupq,
              List.append_assoc]

theorem runEntities_ok_entities (cfg : Config) (env : RunEnv) (till : String) :
    ∀ (es : List EntityState) (rs : RunState),
      (rs.entities.map (·.entity)).Nodup →
      (runEntities cfg env till es rs).2.2 = none →
      (runEntities cfg env till es rs).1.entities
        = rs.entities.map (updIf (es.map (·.entity)) till) := by
  intro es
  induction es with
  | nil =>
    intro rs _ _
    rw [runEntities_nil]
    simp only [List.map_nil]
    exact (map_updIf_nil till rs.entities).symm
  | cons e rest ih =>
    intro rs hnd hok
    have hpf := processEntity_frame cfg env e till rs
    cases hs : (processEntity cfg env e till rs).2.success with
    | false =>
      rw [runEntities_cons_fail cfg env till e rest rs hs] at hok
      exact absurd hok (by simp)
    | true =>
      have hndp : ((processEntity cfg env e till rs).1.entities.map (·.entity)).Nodup := by
        rw [hpf.1]; exact hnd
      cases hu : (updateEntityTimestamp env (processEntity cfg env e till rs).1
          e.entity till).2 with
      | some msg =>
        rw [runEntities_cons_commitfail cfg env till e rest rs msg hs hu] at hok
        exact absurd hok (by simp)
      | none =>
        cases hsf : setFirstTimestamp (processEntity cfg env e till rs).1.entities
            e.entity till with
        | none =>
          exfalso
          have h2 : (updateEntityTimestamp env (processEntity cfg env e till rs).1
              e.entity till).2 = some ("entity not found: " ++ e.entity) := by
            simp [updateEntityTimestamp, hsf]
          rw [hu] at h2
          exact absurd h2 (by simp)
        | some l' =>
          have hl' : l' = rs.entities.map (updIf [e.entity] till) := by
            have h2 := setFirstTimestamp_some_nodup hndp hsf
            rw [h2, hpf.1]
          have hup1 : (updateEntityTimestamp env (processEntity cfg env e till rs).1
              e.entity till).1.entities = l' := by
            simp only [updateEntityTimestamp, hsf]
            exact (saveState_frame env _).1
          have hnd2 : (((updateEntityTimestamp env (processEntity cfg env e till rs).1
              e.entity till).1).entities.map (·.entity)).Nodup := by
            rw [hup1, hl', map_updIf_names]
            exact hnd
          rw [runEntities_cons_ok cfg env till e rest rs hs hu] at hok ⊢
          rw [ih (updateEntityTimestamp env (processEntity cfg env e till rs).1
              e.entity till).1 hnd2 hok, hup1, hl', List.map_map]
          simp only [List.map_cons]
          exact List.map_congr_left fun x _ => by
            simp only [Function.comp_apply, updIf_updIf]

/-! ### C1 — all watermarks equal the shared captured end -/

/-- C1: `Run` formats a single `tillDate` (captured in UTC, once, before
the entity loop, with the layout `2006-01-02T15:04:05` also used to
read watermarks back); after a run that returns no error, every active
entity in the store carries exactly that one formatted string as its
`lastRunTime`.  Unique entity names are the store's data-model
invariant. -/
theorem c1_watermarks_equal_captured_end (cfg : Config) (env : RunEnv) (rs : RunState)
    (hnd : (rs.entities.map (·.entity)).Nodup)
    (hok : (runExport cfg env rs).2.2 = none) :
    ∀ x ∈ (runExport cfg env rs).1.entities, x.active = true →
      x.lastRunTime = formatTS env.tillNow := by
  intro x hx hact
  have hok2 : (runEntities cfg env (formatTS env.tillNow)
      (getActiveEntities rs.entities) rs).2.2 = none := hok
  have hent := runEntities_ok_entities cfg env (formatTS env.tillNow)
    (getActiveEntities rs.entities) rs hnd hok2
  have hx2 : x ∈ (runEntities cfg env (formatTS env.tillNow)
      (getActiveEntities rs.entities) rs).1.entities := hx
  rw [hent] at hx2
  obtain ⟨x0, hx0mem, hx0⟩ := List.mem_map.mp hx2
  have hact0 : x0.active = true := by
    rw [← updIf_active ((getActiveEntities rs.entities).map (·.entity))
      (formatTS env.tillNow) x0, hx0]
    exact hact
  have hmem : x0.entity ∈ (getActiveEntities rs.entities).map (·.entity) :=
    List.mem_map_of_mem _ (List.mem_filter.mpr ⟨hx0mem, hact0⟩)
  rw [← hx0]
  simp [updIf, hmem]

/-- Witness for C1: in a successful concrete run the active entity's
watermark equals the formatted captured end. -/
theorem c1_watermarks_equal_captured_end_witness :
    ({ entity := "acct", lastRunTime := "2025-01-15T00:00:00", active := true }
      : EntityState).lastRunTime = formatTS envW.tillNow :=
  c1_watermarks_equal_captured_end cfgW envW (rsOf [entA, entD]) (by decide) rfl
    { entity := "acct", lastRunTime := "2025-01-15T00:00:00", active := true }
    (by decide) rfl

/-! ### C7 — inactive entities are never queried nor touched -/

/-- C7: under the unique-names invariant, a run (successful or not)
never runs a query for an entity with `active = false` and leaves every
such entity's state fields — name, watermark, flag, and position —
exactly as they were. -/
theorem c7_inactive_untouched (cfg : Config) (env : RunEnv) (rs : RunState)
    (hnd : (rs.entities.map (·.entity)).Nodup)
    (hq0 : rs.queried = []) :
    ∀ (i : Nat) (x : EntityState), rs.entities[i]? = some x → x.active = false →
      (runExport cfg env rs).1.entities[i]? = some x
      ∧ x.entity ∉ (runExport cfg env rs).1.queried := by
  intro i x hix hact
  obtain ⟨upd, q, hupd, hq, hent, hqr⟩ := runEntities_shape cfg env
    (formatTS env.tillNow) (getActiveEntities rs.entities) rs hnd
  have hxmem : x ∈ rs.entities := List.getElem?_mem hix
  have hnotact : x.entity ∉ (getActiveEntities rs.entities).map (·.entity) := by
    intro hmem
    obtain ⟨y, hy, hyx⟩ := List.mem_map.mp hmem
    have hyl := (List.mem_filter.mp hy).1
    have hya := (List.mem_filter.mp hy).2
    have hxy : y = x := List.inj_on_of_nodup_map hnd hyl hxmem hyx
    rw [hxy, hact] at hya
    exact absurd hya (by simp)
  constructor
  · show (runEntities cfg env (formatTS env.tillNow)
        (getActiveEntities rs.entities) rs).1.entities[i]? = some x
    rw [hent, List.getElem?_map, hix]
    have hxu : x.entity ∉ upd := fun h => hnotact (hupd _ h)
    simp [updIf, hxu]
  · show x.entity ∉ (runEntities cfg env (formatTS env.tillNow)
        (getActiveEntities rs.entities) rs).1.queried
    rw [hqr, hq0, List.nil_append]
    exact fun h => hnotact (hq _ h)

/-- Witness for C7 at a concrete run with one active and one inactive
entity. -/
theorem c7_inactive_untouched_witness :
    (runExport cfgW envW (rsOf [entA, entD])).1.entities[1]? = some entD
    ∧ entD.entity ∉ (runExport cfgW envW (rsOf [entA, entD])).1.queried :=
  c7_inactive_untouched cfgW envW (rsOf [entA, entD]) (by decide) rfl 1 entD rfl rfl

/-! ### C2 — fail-fast with commits retained -/

/-- C2 (amended): after a prefix of entities that processed and
committed successfully, (i) a PROCESSING failure of the next entity
(missing template, start-date parse, query/iteration, write path)
records that entity's result with `success = false` and the error set,
stops the run — the equation's right-hand side does not depend on the
remaining entities — and leaves the watermark store (in-memory list,
state file, mirror) exactly as after the last successful commit, with
no rollback of earlier commits; (ii) a COMMIT failure after successful
processing also stops the run with the commit error, but the entity's
recorded `EntityResult` keeps `success = true`; and (iii) every result
recorded for the prefix has `success = true`. -/
theorem c2_failfast_no_rollback (cfg : Config) (env : RunEnv) (till : String)
    (pre : List EntityState) (e : EntityState) (rest : List EntityState)
    (rs rsMid : RunState) (resPre : List EntityResult)
    (hpre : processedOk cfg env till pre rs rsMid resPre) :
    ((∀ rsF r, processEntity cfg env e till rsMid = (rsF, r) → r.success = false →
        runEntities cfg env till (pre ++ e :: rest) rs
          = (rsF, resPre ++ [r],
             some ("entity " ++ e.entity ++ " failed: " ++ r.error.getD ""))
        ∧ r.error.isSome = true
        ∧ rsF.entities = rsMid.entities
        ∧ rsF.stateDisk = rsMid.stateDisk
        ∧ rsF.stateRemote = rsMid.stateRemote)
     ∧ (∀ rsF r rsC msg, processEntity cfg env e till rsMid = (rsF, r) →
          r.success = true →
          updateEntityTimestamp env rsF e.entity till = (rsC, some msg) →
          runEntities cfg env till (pre ++ e :: rest) rs
            = (rsC, resPre ++ [r],
               some ("failed to update state for " ++ e.entity ++ ": " ++ msg)))
     ∧ (∀ r ∈ resPre, r.success = true)) := by
  induction hpre with
  | nil rs0 =>
    refine ⟨?_, ?_, by simp⟩
    · intro rsF r hp hs
      have hs2 : (processEntity cfg env e till rs0).2.success = false := by
        rw [hp]; exact hs
      have herr := processEntity_fail_error cfg env e till rs0 hs2
      rw [hp] at herr
      have heq := runEntities_cons_fail cfg env till e rest rs0 hs2
      rw [hp] at heq
      have hfr := processEntity_frame cfg env e till rs0
      rw [hp] at hfr
      exact ⟨by simpa using heq, herr, hfr.1, hfr.2.1, hfr.2.2.1⟩
    · intro rsF r rsC msg hp hs huc
      have hs2 : (processEntity cfg env e till rs0).2.success = true := by
        rw [hp]; exact hs
      have hu2 : (updateEntityTimestamp env (processEntity cfg env e till rs0).1
          e.entity till).2 = some msg := by
        rw [hp]; rw [huc]
      have heq := runEntities_cons_commitfail cfg env till e rest rs0 msg hs2 hu2
      rw [hp, huc] at heq
      simpa using heq
  | cons e0 rest0 rs0 rs1 rs2 rs3 r0 res0 hp0 hs0 hu0 _ ih =>
    obtain ⟨ih1, ih2, ih3⟩ := ih
    have hs0x : (processEntity cfg env e0 till rs0).2.success = true := by
      rw [hp0]; exact hs0
    have hu0x : (updateEntityTimestamp env (processEntity cfg env e0 till rs0).1
        e0.entity till).2 = none := by
      rw [hp0, hu0]
    have hup1 : (updateEntityTimestamp env (processEntity cfg env e0 till rs0).1
        e0.entity till).1 = rs2 := by
      rw [hp0, hu0]
    have hrw := runEntities_cons_ok cfg env till e0 (rest0 ++ e :: rest) rs0 hs0x hu0x
    rw [hup1, hp0] at hrw
    refine ⟨?_, ?_, ?_⟩
    · intro rsF r hp hs
      obtain ⟨heq, herr, hf1, hf2, hf3⟩ := ih1 rsF r hp hs
      refine ⟨?_, herr, hf1, hf2, hf3⟩
      rw [List.cons_append, hrw, heq]
      simp
    · intro rsF r rsC msg hp hs huc
      have heq := ih2 rsF r rsC msg hp hs huc
      rw [List.cons_append, hrw, heq]
      simp
    · intro r hr
      rcases List.mem_cons.mp hr with rfl | hr2
      · exact hs0
      · exact ih3 r hr2

/-- C2 counterexample to the claim as stated: a run whose first entity
processes successfully but whose watermark commit fails (the state
file rename fails) stops with the commit error and never processes the
second active entity, yet the recorded `EntityResult` of the failing
step has `success = true`, not `success = false`. -/
theorem c2_counterexample :
    (runExport cfgW envC2x (rsOf [entA, entB])).2.2
      = some "failed to update state for acct: failed to rename temp file"
    ∧ (runExport cfgW envC2x (rsOf [entA, entB])).2.1.results.map (·.success) = [true]
    ∧ (runExport cfgW envC2x (rsOf [entA, entB])).2.1.results.map (·.entity) = ["acct"] :=
  ⟨rfl, rfl, rfl⟩

/-- Witness for the amended C2: after `acct` succeeds and commits,
`bill`'s missing SQL template stops the run with `bill`'s failure
recorded after `acct`'s success. -/
theorem c2_failfast_no_rollback_witness :
    (runEntities cfgW envC2w "2025-01-15T00:00:00" ([entA] ++ entB :: [])
        (rsOf [entA, entB])).2.2
      = some "entity bill failed: failed to load SQL file"
    ∧ ((processEntity cfgW envC2w entB "2025-01-15T00:00:00"
        (updateEntityTimestamp envC2w
          (processEntity cfgW envC2w entA "2025-01-15T00:00:00"
            (rsOf [entA, entB])).1
          entA.entity "2025-01-15T00:00:00").1).2).error.isSome = true := by
  have hpre : processedOk cfgW envC2w "2025-01-15T00:00:00" [entA]
      (rsOf [entA, entB])
      (updateEntityTimestamp envC2w
        (processEntity cfgW envC2w entA "2025-01-15T00:00:00"
          (rsOf [entA, entB])).1
        entA.entity "2025-01-15T00:00:00").1
      [(processEntity cfgW envC2w entA "2025-01-15T00:00:00" (rsOf [entA, entB])).2] :=
    processedOk.cons entA [] (rsOf [entA, entB]) _ _ _ _ [] rfl rfl rfl
      (processedOk.nil _)
  have h := (c2_failfast_no_rollback cfgW envC2w "2025-01-15T00:00:00" [entA] entB []
      (rsOf [entA, entB]) _ _ hpre).1 _ _ rfl rfl
  exact ⟨by rw [h.1]; rfl, h.2.1⟩
